import Mathlib

/-!
Verification of the `ralph-tui` session registry (`session-registry.ts`)
and desktop notification module (`notifications.ts`).

The registry is a JSON document persisted at
`~/.config/ralph-tui/sessions.json`.  Every operation performs a full
load → mutate → save cycle against that file.  We embed:

* the JSON data that `JSON.parse` can produce (`Json`), together with the
  relevant JavaScript quirks (`typeof null === 'object'`, property access
  on `null` throwing, property access on non-objects yielding `undefined`);
* the on-disk file as an abstract `DiskFile`: absent, unreadable,
  text that fails `JSON.parse`, or text that parses to a `Json` value;
* `loadRegistry` exactly as in the source (validation + fail-open catch);
* the typed document `SessionRegistry` (the TypeScript interface) with
  its JSON encoding, and every registry operation on a state that tracks
  the current well-formed on-disk document plus a count of `writeFile`
  calls, so that "performs no write" claims are observable;
* the notification wrapper with an explicit model of a notifier that can
  fail synchronously (throw) or asynchronously (error callback).

JavaScript `Record` semantics are modelled by an association list in
insertion order: assignment to an existing key replaces the value in
place, assignment to a fresh key appends, `delete` removes, and
`Object.entries` / `Object.values` enumerate in that order.
-/

namespace RalphTui

/-- Session status, from `types.ts` (not included in the sources; the
field's enumeration {running, paused, interrupted, completed, failed} is
taken from the specification's data-model table, which matches every use
in `session-registry.ts`). -/
inductive SessionStatus where
  | running
  | paused
  | interrupted
  | completed
  | failed
deriving DecidableEq, BEq, Repr

/-- `SessionRegistryEntry` from `session-registry.ts`.  Optional fields
(`epicId?`, `prdPath?`, `sandbox?`) become `Option`s; `none` stands for
the property being absent (or `undefined`, which `JSON.stringify` also
omits). -/
structure SessionRegistryEntry where
  sessionId : String
  cwd : String
  status : SessionStatus
  startedAt : String
  updatedAt : String
  agentPlugin : String
  trackerPlugin : String
  epicId : Option String
  prdPath : Option String
  sandbox : Option Bool
deriving DecidableEq, Repr

/-- `SessionRegistry` from `session-registry.ts`.  The `version` field is
the literal `1` in the TypeScript type, so it carries no information at
the typed level and is reintroduced by the JSON encoding.  `sessions` is
the `Record<string, SessionRegistryEntry>` in insertion order. -/
structure SessionRegistry where
  sessions : List (String × SessionRegistryEntry)
deriving DecidableEq, Repr

/-- JSON values as produced by `JSON.parse` (numbers restricted to the
integers that appear in this schema). -/
inductive Json where
  | null
  | bool (b : Bool)
  | num (n : Int)
  | str (s : String)
  | arr (elems : List Json)
  | obj (fields : List (String × Json))

/-- The on-disk state of the registry file.  `jsonText v` abstracts a
readable file whose text `JSON.parse` accepts and parses to `v`;
`notJson` a readable file whose text `JSON.parse` rejects. -/
inductive DiskFile where
  | absent
  | unreadable
  | notJson (raw : String)
  | jsonText (v : Json)

namespace Json

/-- JavaScript property access `v[k]` on a non-`null` value: an object
yields the field's value or `undefined` (`none`); any other non-`null`
value (boolean, number, string, array without such an index) yields
`undefined`.  Access on `null` throws and is handled separately in
`loadRegistry`. -/
def jsGet : Json → String → Option Json
  | .obj fields, k => (fields.find? (fun p => p.1 == k)).map Prod.snd
  | _, _ => none

/-- JavaScript `typeof x === 'object'` for a possibly-`undefined` value:
true exactly for `null`, arrays and objects (`typeof null` is
`'object'`). -/
def typeofIsObject : Option Json → Bool
  | some .null => true
  | some (.arr _) => true
  | some (.obj _) => true
  | _ => false

/-- JavaScript strict equality `x === 1` for a possibly-`undefined`
value (`parsed.version !== 1` negated): true exactly for the number 1. -/
def strictEqOne : Option Json → Bool
  | some (.num n) => n == 1
  | _ => false

end Json

/-- The fresh empty document `{version: 1, sessions: {}}`. -/
def emptyRegistryJson : Json :=
  .obj [("version", .num 1), ("sessions", .obj [])]

/-- `loadRegistry` (source lines 91–108) as a function of the on-disk
file.  A missing file (`access` throws), an unreadable file (`readFile`
throws) and non-JSON text (`JSON.parse` throws) all land in the `catch`
and yield the empty document.  When the text parses to `null`, reading
`parsed.version` throws a `TypeError`, also caught.  Otherwise the code
checks `parsed.version !== 1 || typeof parsed.sessions !== 'object'` and
returns the parsed value unchanged when the check passes. -/
def loadRegistry : DiskFile → Json
  | .absent => emptyRegistryJson
  | .unreadable => emptyRegistryJson
  | .notJson _ => emptyRegistryJson
  | .jsonText .null => emptyRegistryJson
  | .jsonText v =>
    if Json.strictEqOne (v.jsGet "version") && Json.typeofIsObject (v.jsGet "sessions") then
      v
    else
      emptyRegistryJson

/-- The string `JSON.stringify` writes for a status (statuses are string
literals in TypeScript). -/
def statusToString : SessionStatus → String
  | .running => "running"
  | .paused => "paused"
  | .interrupted => "interrupted"
  | .completed => "completed"
  | .failed => "failed"

/-- Decoding of a status string. -/
def statusOfString : String → Option SessionStatus
  | "running" => some .running
  | "paused" => some .paused
  | "interrupted" => some .interrupted
  | "completed" => some .completed
  | "failed" => some .failed
  | _ => none

/-- The JSON image of one entry under `JSON.stringify`: mandatory fields
always present, optional fields omitted when absent/`undefined`. -/
def encodeEntry (e : SessionRegistryEntry) : Json :=
  .obj ([("sessionId", .str e.sessionId),
         ("cwd", .str e.cwd),
         ("status", .str (statusToString e.status)),
         ("startedAt", .str e.startedAt),
         ("updatedAt", .str e.updatedAt),
         ("agentPlugin", .str e.agentPlugin),
         ("trackerPlugin", .str e.trackerPlugin)]
    ++ (match e.epicId with | some s => [("epicId", Json.str s)] | none => [])
    ++ (match e.prdPath with | some s => [("prdPath", Json.str s)] | none => [])
    ++ (match e.sandbox with | some b => [("sandbox", Json.bool b)] | none => []))

/-- The JSON image of a whole document under `JSON.stringify`. -/
def encodeRegistry (r : SessionRegistry) : Json :=
  .obj [("version", .num 1),
        ("sessions", .obj (r.sessions.map (fun p => (p.1, encodeEntry p.2))))]

/-- Reading one entry back from its JSON image (the deep-equality notion
of the specification: two JS values are deep-equal exactly when their
JSON trees coincide, optional fields compared as absent-vs-absent). -/
def decodeEntry (v : Json) : Option SessionRegistryEntry :=
  match v with
  | .obj _ =>
    match v.jsGet "sessionId", v.jsGet "cwd", v.jsGet "status", v.jsGet "startedAt",
          v.jsGet "updatedAt", v.jsGet "agentPlugin", v.jsGet "trackerPlugin" with
    | some (.str sid), some (.str cwd), some (.str st), some (.str sa),
      some (.str ua), some (.str ap), some (.str tp) =>
      match statusOfString st with
      | some status =>
        some { sessionId := sid, cwd := cwd, status := status, startedAt := sa,
               updatedAt := ua, agentPlugin := ap, trackerPlugin := tp,
               epicId := match v.jsGet "epicId" with | some (.str s) => some s | _ => none,
               prdPath := match v.jsGet "prdPath" with | some (.str s) => some s | _ => none,
               sandbox := match v.jsGet "sandbox" with | some (.bool b) => some b | _ => none }
      | none => none
    | _, _, _, _, _, _, _ => none
  | _ => none

/-- Reading a whole document back from its JSON image. -/
def decodeRegistry (v : Json) : Option SessionRegistry :=
  match v.jsGet "version", v.jsGet "sessions" with
  | some (.num n), some (.obj kvs) =>
    if n = 1 then
      (kvs.mapM (fun p => (decodeEntry p.2).map (fun e => (p.1, e)))).map
        (fun sessions => { sessions := sessions })
    else none
  | _, _ => none

/-- `saveRegistry` (source lines 113–117) viewed through the file's
content: after `writeFile(path, JSON.stringify(registry, null, 2))` the
file holds text that `JSON.parse` maps back to `encodeRegistry registry`
(pretty-printing with 2-space indentation only inserts insignificant
whitespace). -/
def saveRegistryContent (registry : SessionRegistry) : DiskFile :=
  .jsonText (encodeRegistry registry)

/-! ## JavaScript `Record` primitives

`sessions` is a plain JS object used as a string-keyed map.  Property
assignment on an existing key replaces the value, keeping the key's
position in enumeration order; assignment on a fresh key appends;
`delete` removes; `Object.entries` and `Object.values` enumerate pairs
respectively values in that order; `sessions[k]` reads a key. -/

/-- JS property read `m[k]` on a string-keyed record (yields
`undefined`, i.e. `none`, for a missing key). -/
def recordGet (m : List (String × α)) (k : String) : Option α :=
  (m.find? (fun p => p.1 == k)).map Prod.snd

/-- JS property assignment `m[k] = v`. -/
def recordSet (m : List (String × α)) (k : String) (v : α) : List (String × α) :=
  if m.any (fun p => p.1 == k) then
    m.map (fun p => if p.1 == k then (k, v) else p)
  else
    m ++ [(k, v)]

/-- JS `delete m[k]`. -/
def recordDelete (m : List (String × α)) (k : String) : List (String × α) :=
  m.filter (fun p => !(p.1 == k))

/-! ## Registry operations

Every public operation of `session-registry.ts` performs
load → (mutate →) save against the registry file.  The claims quantify
over well-formed registry states — exactly the file contents that
`saveRegistry` itself produces, on which `loadRegistry` returns the
stored document unchanged (proved below as `loadRegistry_saveContent`).
`RegistryFs` is therefore the decoded on-disk document together with a
count of `writeFile` calls, which makes "performs no write" observable. -/

/-- The registry file state seen by the operations: the current
well-formed document on disk, and how many `writeFile` calls have been
performed so far. -/
structure RegistryFs where
  doc : SessionRegistry
  writes : Nat
deriving DecidableEq, Repr

/-- `saveRegistry` (source lines 113–117): replaces the whole file with
the new document, one `writeFile` call. -/
def saveRegistry (registry : SessionRegistry) (fs : RegistryFs) : RegistryFs :=
  { doc := registry, writes := fs.writes + 1 }

/-- `registerSession` (source lines 122–126):
`registry.sessions[entry.sessionId] = entry`, then save. -/
def registerSession (entry : SessionRegistryEntry) (fs : RegistryFs) : RegistryFs :=
  let registry := fs.doc
  saveRegistry { sessions := recordSet registry.sessions entry.sessionId entry } fs

/-- `updateRegistryStatus` (source lines 131–143): if the id is present,
mutate that entry's `status` and stamp `updatedAt` with the current time
(`now` stands for `new Date().toISOString()`), then save; otherwise do
nothing — no save. -/
def updateRegistryStatus (sessionId : String) (status : SessionStatus)
    (now : String) (fs : RegistryFs) : RegistryFs :=
  let registry := fs.doc
  match recordGet registry.sessions sessionId with
  | some entry =>
    saveRegistry
      { sessions := recordSet registry.sessions sessionId
          { entry with status := status, updatedAt := now } } fs
  | none => fs

/-- `unregisterSession` (source lines 148–152): delete the key (a no-op
when absent), then save unconditionally. -/
def unregisterSession (sessionId : String) (fs : RegistryFs) : RegistryFs :=
  let registry := fs.doc
  saveRegistry { sessions := recordDelete registry.sessions sessionId } fs

/-- `getSessionById` (source lines 157–162): `sessions[sessionId] ?? null`. -/
def getSessionById (sessionId : String) (fs : RegistryFs) : Option SessionRegistryEntry :=
  recordGet fs.doc.sessions sessionId

/-- `getSessionByCwd` (source lines 167–179): first entry of
`Object.values` whose `cwd` matches exactly. -/
def getSessionByCwd (cwd : String) (fs : RegistryFs) : Option SessionRegistryEntry :=
  (fs.doc.sessions.map Prod.snd).find? (fun entry => entry.cwd == cwd)

/-- The literal `resumableStatuses` array from source line 186. -/
def resumableStatuses : List SessionStatus := [.paused, .running, .interrupted]

/-- `listResumableSessions` (source lines 184–191):
`Object.values(sessions).filter(e => resumableStatuses.includes(e.status))`. -/
def listResumableSessions (fs : RegistryFs) : List SessionRegistryEntry :=
  (fs.doc.sessions.map Prod.snd).filter (fun entry => resumableStatuses.contains entry.status)

/-- `listAllSessions` (source lines 196–199). -/
def listAllSessions (fs : RegistryFs) : List SessionRegistryEntry :=
  fs.doc.sessions.map Prod.snd

/-- The loop of `cleanupStaleRegistryEntries` (source lines 211–217):
walk `Object.entries` of the loaded document front to back, delete every
entry whose `cwd` the predicate rejects, count the deletions.  Returns
the surviving entries (in order) and the count. -/
def cleanupLoop (checkSessionExists : String → Bool) :
    List (String × SessionRegistryEntry) → List (String × SessionRegistryEntry) × Nat
  | [] => ([], 0)
  | p :: rest =>
    let r := cleanupLoop checkSessionExists rest
    if checkSessionExists p.2.cwd then (p :: r.1, r.2) else (r.1, r.2 + 1)

/-- `cleanupStaleRegistryEntries` (source lines 205–224): run the loop,
save once if anything was deleted (`cleaned > 0`), otherwise perform no
write; return the count.  The injected `checkSessionExists` predicate is
modelled as a pure function of the `cwd`, as required of it by the
specification (it must not mutate the registry). -/
def cleanupStaleRegistryEntries (checkSessionExists : String → Bool)
    (fs : RegistryFs) : RegistryFs × Nat :=
  let registry := fs.doc
  let r := cleanupLoop checkSessionExists registry.sessions
  if r.2 > 0 then
    (saveRegistry { sessions := r.1 } fs, r.2)
  else
    (fs, r.2)

/-- ECMAScript `String.prototype.startsWith(search)` with no position
argument: the characters of `search` occur at the start of the string
(case-sensitive, character-wise, no normalisation). -/
def jsStartsWith (s search : String) : Bool :=
  search.data.isPrefixOf s.data

/-- `findSessionsByPrefix` (source lines 229–237):
`Object.entries(sessions).filter(([id]) => id.startsWith(pfx)).map(([, e]) => e)`. -/
def findSessionsByPrefix (pfx : String) (fs : RegistryFs) : List SessionRegistryEntry :=
  (fs.doc.sessions.filter (fun p => jsStartsWith p.1 pfx)).map Prod.snd

/-! ## Notifications (`notifications.ts`) -/

/-- `NotificationOptions` from `notifications.ts`. -/
structure NotificationOptions where
  title : String
  body : String
  icon : Option String
deriving DecidableEq, Repr

/-- The payload handed to `notifier.notify`. -/
structure NotifyPayload where
  title : String
  message : String
  icon : Option String
  sound : Bool
deriving DecidableEq, Repr

/-- Behaviour of the external `node-notifier` collaborator on one call:
it can succeed, invoke the callback with an error, or throw
synchronously (the string is the error's message, via
`err instanceof Error ? err.message : String(err)`). -/
inductive NotifierBehavior where
  | ok
  | callbackError (msg : String)
  | throwEx (msg : String)
deriving DecidableEq, Repr

/-- `notifier.notify(payload, callback)` under a given behaviour:
`Except.error` is a synchronous throw escaping `notify`; `Except.ok w`
is a normal return, with `w` the warning the callback printed (if the
callback received an error). -/
def notifierNotify (beh : NotifierBehavior) (_payload : NotifyPayload) :
    Except String (List String) :=
  match beh with
  | .ok => .ok []
  | .callbackError msg =>
    .ok ["[notifications] Failed to send notification: " ++ msg]
  | .throwEx msg => .error msg

/-- `sendNotification` (source lines 33–54) before the `try`/`catch` is
applied: the body's outcome, where `Except.error` would be an exception
propagating to the caller. -/
def sendNotificationBody (beh : NotifierBehavior) (options : NotificationOptions) :
    Except String (List String) :=
  notifierNotify beh
    { title := options.title, message := options.body,
      icon := options.icon, sound := false }

/-- `sendNotification` (source lines 33–54): the body wrapped in the
`try`/`catch` that turns any synchronous throw into a
`console.warn` line.  The result is the list of warnings printed; the
function itself returns `void` and never lets an exception escape. -/
def sendNotification (beh : NotifierBehavior) (options : NotificationOptions) :
    List String :=
  match sendNotificationBody beh options with
  | .ok warnings => warnings
  | .error msg => ["[notifications] Failed to send notification: " ++ msg]

/-! ## Well-formedness of registry documents -/

/-- The data-model invariant: every key of `sessions` equals the
`sessionId` of the entry it maps to. -/
def KeyInvariant (r : SessionRegistry) : Prop :=
  ∀ p ∈ r.sessions, p.1 = p.2.sessionId

/-- A well-formed registry document: `sessions` is a genuine JS record
(no duplicate keys) and the key invariant holds. -/
def RegistryWellFormed (r : SessionRegistry) : Prop :=
  (r.sessions.map Prod.fst).Nodup ∧ KeyInvariant r

/-! ## Concrete example values (used by witnesses) -/

/-- An example entry. -/
def exEntryA : SessionRegistryEntry :=
  { sessionId := "a", cwd := "/x", status := .running,
    startedAt := "2025-01-01T00:00:00Z", updatedAt := "2025-01-01T00:00:00Z",
    agentPlugin := "agent", trackerPlugin := "beads",
    epicId := some "epic-1", prdPath := none, sandbox := some true }

/-- A second example entry with the same id as `exEntryA`, different
everything else. -/
def exEntryA2 : SessionRegistryEntry :=
  { sessionId := "a", cwd := "/y", status := .paused,
    startedAt := "2025-02-02T00:00:00Z", updatedAt := "2025-02-03T00:00:00Z",
    agentPlugin := "agent2", trackerPlugin := "json",
    epicId := none, prdPath := some "prd.json", sandbox := none }

/-- An example entry with a distinct id. -/
def exEntryB : SessionRegistryEntry :=
  { sessionId := "b", cwd := "/y", status := .completed,
    startedAt := "2025-01-02T00:00:00Z", updatedAt := "2025-01-02T00:00:00Z",
    agentPlugin := "agent", trackerPlugin := "json",
    epicId := none, prdPath := none, sandbox := none }

/-- An example two-entry registry document. -/
def exRegistry : SessionRegistry :=
  { sessions := [("a", exEntryA), ("b", exEntryB)] }

/-- An example registry file state. -/
def exFs : RegistryFs := { doc := exRegistry, writes := 0 }

/-! ## Lemmas about the record primitives -/

theorem mem_recordSet {m : List (String × α)} {k : String} {v : α} {p : String × α}
    (hp : p ∈ recordSet m k v) : p = (k, v) ∨ p ∈ m := by
  unfold recordSet at hp
  by_cases h : m.any (fun q => q.1 == k)
  · rw [if_pos h] at hp
    obtain ⟨q, hq, hfq⟩ := List.mem_map.mp hp
    by_cases hk : (q.1 == k) = true
    · left
      rw [if_pos hk] at hfq
      exact hfq.symm
    · right
      rw [if_neg hk] at hfq
      exact hfq ▸ hq
  · rw [if_neg h] at hp
    rcases List.mem_append.mp hp with h1 | h1
    · right
      exact h1
    · left
      simpa using h1

theorem recordSet_keys_of_any {m : List (String × α)} {k : String} (v : α)
    (h : m.any (fun q => q.1 == k) = true) :
    (recordSet m k v).map Prod.fst = m.map Prod.fst := by
  unfold recordSet
  rw [if_pos h, List.map_map]
  apply List.map_congr_left
  intro p _
  by_cases hk : (p.1 == k) = true
  · have : p.1 = k := by simpa using hk
    simp [hk, this]
  · have : ¬p.1 = k := by simpa using hk
    simp [this]

theorem recordSet_nodupKeys {m : List (String × α)} (k : String) (v : α)
    (h : (m.map Prod.fst).Nodup) : ((recordSet m k v).map Prod.fst).Nodup := by
  by_cases hany : m.any (fun q => q.1 == k) = true
  · rw [recordSet_keys_of_any v hany]
    exact h
  · unfold recordSet
    rw [if_neg hany, List.map_append]
    have hnotmem : k ∉ m.map Prod.fst := by
      intro hmem
      obtain ⟨q, hq, hq1⟩ := List.mem_map.mp hmem
      exact hany (List.any_eq_true.mpr ⟨q, hq, by simp [hq1]⟩)
    simp [List.nodup_append, h, hnotmem]

theorem filter_eq_nil_of_no_key {m : List (String × α)} {k : String}
    (h : ∀ q ∈ m, (q.1 == k) = false) :
    m.filter (fun p => p.1 == k) = [] := by
  rw [List.filter_eq_nil_iff]
  intro q hq
  simp [h q hq]

theorem filter_setMap {m : List (String × α)} {k : String} {v : α}
    (hany : m.any (fun q => q.1 == k) = true) (h : (m.map Prod.fst).Nodup) :
    (m.map (fun p => if p.1 == k then (k, v) else p)).filter (fun p => p.1 == k)
      = [(k, v)] := by
  induction m with
  | nil => simp at hany
  | cons q rest ih =>
    rw [List.map_cons, List.nodup_cons] at h
    by_cases hk : (q.1 == k) = true
    · have hqk : q.1 = k := by simpa using hk
      have hrest : ∀ p ∈ rest, (p.1 == k) = false := by
        intro p hp
        have hne : p.1 ≠ k := by
          intro hpk
          have hmem : p.1 ∈ List.map Prod.fst rest := List.mem_map_of_mem Prod.fst hp
          rw [hpk, ← hqk] at hmem
          exact h.1 hmem
        simpa using hne
      have hmapid : rest.map (fun p => if p.1 == k then (k, v) else p) = rest.map id := by
        apply List.map_congr_left
        intro p hp
        rw [if_neg (by simp [hrest p hp])]
        rfl
      simp only [List.map_cons, if_pos hk, hmapid, List.map_id]
      rw [List.filter_cons_of_pos (by simp)]
      rw [filter_eq_nil_of_no_key hrest]
    · have hany' : rest.any (fun q => q.1 == k) = true := by
        rcases List.any_eq_true.mp hany with ⟨p, hp, hpk⟩
        rcases List.mem_cons.mp hp with rfl | hp'
        · exact absurd hpk (by simpa using hk)
        · exact List.any_eq_true.mpr ⟨p, hp', hpk⟩
      simp only [List.map_cons, if_neg hk]
      rw [List.filter_cons_of_neg (by simpa using hk)]
      exact ih hany' h.2

theorem filter_recordSet_self {m : List (String × α)} (k : String) (v : α)
    (h : (m.map Prod.fst).Nodup) :
    (recordSet m k v).filter (fun p => p.1 == k) = [(k, v)] := by
  unfold recordSet
  by_cases hany : m.any (fun q => q.1 == k) = true
  · rw [if_pos hany]
    exact filter_setMap hany h
  · rw [if_neg hany, List.filter_append]
    have hnone : ∀ q ∈ m, (q.1 == k) = false := by
      intro q hq
      by_contra hc
      exact hany (List.any_eq_true.mpr ⟨q, hq, by simpa using hc⟩)
    rw [filter_eq_nil_of_no_key hnone]
    simp

theorem recordGet_mem {m : List (String × α)} {k : String} {v : α}
    (h : recordGet m k = some v) : (k, v) ∈ m := by
  unfold recordGet at h
  cases hf : m.find? (fun q => q.1 == k) with
  | none => rw [hf] at h; simp at h
  | some p =>
    rw [hf] at h
    have hpk := List.find?_some hf
    have hpm : p ∈ m := List.mem_of_find?_eq_some hf
    have hk : p.1 = k := by simpa using hpk
    have hv : p.2 = v := by simpa using h
    have : p = (k, v) := by
      obtain ⟨a, b⟩ := p
      simp only at hk hv
      rw [hk, hv]
    exact this ▸ hpm

/-! ## Lemmas about load/save and the JSON coding -/

theorem loadRegistry_saveContent (reg : SessionRegistry) :
    loadRegistry (saveRegistryContent reg) = encodeRegistry reg := rfl

theorem decodeEntry_encodeEntry (e : SessionRegistryEntry) :
    decodeEntry (encodeEntry e) = some e := by
  obtain ⟨sid, cwd, st, sa, ua, ap, tp, epic, prd, sb⟩ := e
  cases st <;> cases epic <;> cases prd <;> cases sb <;> rfl

theorem decode_encode_sessions (l : List (String × SessionRegistryEntry)) :
    (l.map (fun p => (p.1, encodeEntry p.2))).mapM
      (fun p => (decodeEntry p.2).map (fun e => (p.1, e))) = some l := by
  induction l with
  | nil => rfl
  | cons p rest ih =>
    simp only [List.map_cons, List.mapM_cons, decodeEntry_encodeEntry, ih]
    rfl

theorem decodeRegistry_encodeRegistry (r : SessionRegistry) :
    decodeRegistry (encodeRegistry r) = some r := by
  show decodeRegistry (Json.obj [("version", .num 1),
      ("sessions", .obj (r.sessions.map (fun p => (p.1, encodeEntry p.2))))]) = some r
  have h1 : Json.jsGet (Json.obj [("version", .num 1),
      ("sessions", .obj (r.sessions.map (fun p => (p.1, encodeEntry p.2))))]) "version"
      = some (.num 1) := rfl
  have h2 : Json.jsGet (Json.obj [("version", .num 1),
      ("sessions", .obj (r.sessions.map (fun p => (p.1, encodeEntry p.2))))]) "sessions"
      = some (.obj (r.sessions.map (fun p => (p.1, encodeEntry p.2)))) := rfl
  simp only [decodeRegistry, h1, h2, decode_encode_sessions]
  rfl

/-! ## Lemmas about the cleanup loop -/

theorem cleanupLoop_eq (c : String → Bool) (l : List (String × SessionRegistryEntry)) :
    cleanupLoop c l = (l.filter (fun p => c p.2.cwd), l.countP (fun p => !c p.2.cwd)) := by
  induction l with
  | nil => rfl
  | cons p rest ih =>
    simp only [cleanupLoop, ih]
    by_cases hc : c p.2.cwd = true
    · simp [hc, List.filter_cons, List.countP_cons]
    · simp [hc, List.filter_cons, List.countP_cons,
        Bool.not_eq_true _ ▸ hc]

theorem cleanupStale_sessions_eq (check : String → Bool) (fs : RegistryFs) :
    (cleanupStaleRegistryEntries check fs).1.doc.sessions
      = fs.doc.sessions.filter (fun p => check p.2.cwd) := by
  simp only [cleanupStaleRegistryEntries, cleanupLoop_eq]
  by_cases h0 : fs.doc.sessions.countP (fun p => !check p.2.cwd) = 0
  · have hall : fs.doc.sessions.filter (fun p => check p.2.cwd) = fs.doc.sessions := by
      rw [List.filter_eq_self]
      intro a ha
      have := List.countP_eq_zero.mp h0 a ha
      simpa using this
    simp [h0, hall]
  · simp [h0, Nat.pos_of_ne_zero h0, saveRegistry]

theorem cleanupStale_count_eq (check : String → Bool) (fs : RegistryFs) :
    (cleanupStaleRegistryEntries check fs).2
      = fs.doc.sessions.countP (fun p => !check p.2.cwd) := by
  simp only [cleanupStaleRegistryEntries, cleanupLoop_eq]
  by_cases h0 : fs.doc.sessions.countP (fun p => !check p.2.cwd) = 0
  · simp [h0]
  · simp [h0, Nat.pos_of_ne_zero h0, saveRegistry]

theorem cleanupStale_writes_eq (check : String → Bool) (fs : RegistryFs) :
    (cleanupStaleRegistryEntries check fs).1.writes
      = fs.writes
        + (if fs.doc.sessions.countP (fun p => !check p.2.cwd) = 0 then 0 else 1) := by
  simp only [cleanupStaleRegistryEntries, cleanupLoop_eq]
  by_cases h0 : fs.doc.sessions.countP (fun p => !check p.2.cwd) = 0
  · simp [h0]
  · simp [h0, Nat.pos_of_ne_zero h0, saveRegistry]

/-! ## Claim theorems -/

/-- C1: the claim fails on the code.  JavaScript's `typeof null` is
`'object'`, so a stored document `{"version": 1, "sessions": null}`
passes the check `parsed.version !== 1 || typeof parsed.sessions !==
'object'` and `loadRegistry` returns it unchanged, instead of the empty
document the claim (and the validation's evident intent) requires: the
loaded value has `sessions === null` where the empty document has
`sessions` equal to the empty object. -/
theorem loadRegistry_null_sessions_bug :
    loadRegistry (.jsonText (.obj [("version", .num 1), ("sessions", .null)]))
      = .obj [("version", .num 1), ("sessions", .null)]
  ∧ Json.jsGet
      (loadRegistry (.jsonText (.obj [("version", .num 1), ("sessions", .null)])))
      "sessions" = some .null
  ∧ Json.jsGet emptyRegistryJson "sessions" = some (.obj []) :=
  ⟨rfl, rfl, rfl⟩

/-- C2: saving a well-formed document and loading it back yields a
document deep-equal to the saved one: the loaded JSON is exactly the
JSON that was written (the schema check accepts it and no error is
raised), and that JSON decodes back to the original document, optional
fields included. -/
theorem save_then_load_roundTrip (reg : SessionRegistry)
    (_h : RegistryWellFormed reg) :
    loadRegistry (saveRegistryContent reg) = encodeRegistry reg ∧
    decodeRegistry (loadRegistry (saveRegistryContent reg)) = some reg := by
  refine ⟨loadRegistry_saveContent reg, ?_⟩
  rw [loadRegistry_saveContent]
  exact decodeRegistry_encodeRegistry reg

/-- Witness for C2 at a concrete two-entry registry. -/
theorem save_then_load_roundTrip_witness :
    RegistryWellFormed exRegistry ∧
    (loadRegistry (saveRegistryContent exRegistry) = encodeRegistry exRegistry ∧
     decodeRegistry (loadRegistry (saveRegistryContent exRegistry)) = some exRegistry) :=
  ⟨by unfold RegistryWellFormed KeyInvariant; decide,
   save_then_load_roundTrip exRegistry (by unfold RegistryWellFormed KeyInvariant; decide)⟩

/-- C3: `cleanupStaleRegistryEntries` removes exactly the entries whose
`cwd` the predicate rejects (the survivors are the original enumeration
filtered by the predicate, order and contents untouched), returns the
number K of removed entries, and performs a write exactly when K is
positive — in particular zero writes when K = 0. -/
theorem cleanupStaleRegistryEntries_spec (check : String → Bool) (fs : RegistryFs) :
    (cleanupStaleRegistryEntries check fs).1.doc.sessions
        = fs.doc.sessions.filter (fun p => check p.2.cwd)
  ∧ (cleanupStaleRegistryEntries check fs).2
        = fs.doc.sessions.countP (fun p => !check p.2.cwd)
  ∧ (cleanupStaleRegistryEntries check fs).1.writes
        = fs.writes
          + (if (cleanupStaleRegistryEntries check fs).2 = 0 then 0 else 1) :=
  ⟨cleanupStale_sessions_eq check fs,
   cleanupStale_count_eq check fs,
   by rw [cleanupStale_count_eq check fs]; exact cleanupStale_writes_eq check fs⟩

/-- C4: updating the status of a session id that is absent from the
loaded document is a successful no-op: the returned state is the input
state — the persisted document is untouched, no timestamp is bumped and
no save is performed. -/
theorem updateRegistryStatus_absent_noop (fs : RegistryFs) (sessionId : String)
    (status : SessionStatus) (now : String)
    (h : recordGet fs.doc.sessions sessionId = none) :
    updateRegistryStatus sessionId status now fs = fs := by
  simp only [updateRegistryStatus, h]

/-- Witness for C4 at a concrete registry and an id not in it. -/
theorem updateRegistryStatus_absent_noop_witness :
    recordGet exFs.doc.sessions "zzz" = none ∧
    updateRegistryStatus "zzz" SessionStatus.paused "2025-03-01T00:00:00Z" exFs
      = exFs :=
  ⟨by decide,
   updateRegistryStatus_absent_noop exFs "zzz" SessionStatus.paused
     "2025-03-01T00:00:00Z" (by decide)⟩

/-- C5: registering an entry and then another entry with the same
session id leaves exactly one entry under that id, equal to the second
entry — an unconditional overwrite with no merge of fields (and no
uniqueness check against `cwd`: the two entries' working directories are
unconstrained). -/
theorem registerSession_overwrites (fs : RegistryFs) (e e' : SessionRegistryEntry)
    (hid : e'.sessionId = e.sessionId)
    (hnd : (fs.doc.sessions.map Prod.fst).Nodup) :
    (registerSession e' (registerSession e fs)).doc.sessions.filter
        (fun p => p.1 == e.sessionId) = [(e.sessionId, e')] := by
  show (recordSet (recordSet fs.doc.sessions e.sessionId e) e'.sessionId e').filter
      (fun p => p.1 == e.sessionId) = [(e.sessionId, e')]
  rw [hid]
  exact filter_recordSet_self e.sessionId e' (recordSet_nodupKeys e.sessionId e hnd)

/-- Witness for C5: two concrete entries sharing id "a" with different
working directories, registered into a concrete registry. -/
theorem registerSession_overwrites_witness :
    exEntryA2.sessionId = exEntryA.sessionId ∧
    (exFs.doc.sessions.map Prod.fst).Nodup ∧
    (registerSession exEntryA2 (registerSession exEntryA exFs)).doc.sessions.filter
        (fun p => p.1 == exEntryA.sessionId)
      = [(exEntryA.sessionId, exEntryA2)] :=
  ⟨by decide, by decide,
   registerSession_overwrites exFs exEntryA exEntryA2 (by decide) (by decide)⟩

/-- C6: every mutation operation — register, update-status, unregister
and cleanup-stale — preserves the invariant that each key of the
`sessions` map equals the `sessionId` field of the entry it maps to. -/
theorem mutations_preserve_keyInvariant (fs : RegistryFs)
    (e : SessionRegistryEntry) (sessionId : String) (status : SessionStatus)
    (now : String) (check : String → Bool) (h : KeyInvariant fs.doc) :
    KeyInvariant (registerSession e fs).doc
  ∧ KeyInvariant (updateRegistryStatus sessionId status now fs).doc
  ∧ KeyInvariant (unregisterSession sessionId fs).doc
  ∧ KeyInvariant (cleanupStaleRegistryEntries check fs).1.doc := by
  refine ⟨?_, ?_, ?_, ?_⟩
  · intro p hp
    rcases mem_recordSet hp with rfl | hpm
    · rfl
    · exact h p hpm
  · cases hg : recordGet fs.doc.sessions sessionId with
    | none =>
      intro p hp
      simp only [updateRegistryStatus, hg] at hp
      exact h p hp
    | some entry =>
      have hid : sessionId = entry.sessionId := h _ (recordGet_mem hg)
      intro p hp
      simp only [updateRegistryStatus, hg] at hp
      rcases mem_recordSet hp with rfl | hpm
      · exact hid
      · exact h p hpm
  · intro p hp
    simp only [unregisterSession, saveRegistry, recordDelete] at hp
    exact h p (List.mem_of_mem_filter hp)
  · intro p hp
    rw [cleanupStale_sessions_eq] at hp
    exact h p (List.mem_of_mem_filter hp)

/-- Witness for C6 at a concrete registry, entry, id, status and
predicate. -/
theorem mutations_preserve_keyInvariant_witness :
    KeyInvariant exFs.doc ∧
    (KeyInvariant (registerSession exEntryB exFs).doc
   ∧ KeyInvariant (updateRegistryStatus "a" SessionStatus.failed
        "2025-03-01T00:00:00Z" exFs).doc
   ∧ KeyInvariant (unregisterSession "a" exFs).doc
   ∧ KeyInvariant (cleanupStaleRegistryEntries (fun c => c == "/x") exFs).1.doc) :=
  ⟨by unfold KeyInvariant; decide,
   mutations_preserve_keyInvariant exFs exEntryB "a" SessionStatus.failed
     "2025-03-01T00:00:00Z" (fun c => c == "/x")
     (by unfold KeyInvariant; decide)⟩

/-- C7: `listResumableSessions` returns exactly the entries whose status
is running, paused or interrupted, in enumeration order — the full
enumeration filtered by that status test — and, equivalently, it is the
full enumeration with exactly the completed and failed entries
dropped. -/
theorem listResumableSessions_spec (fs : RegistryFs) :
    listResumableSessions fs
      = (listAllSessions fs).filter
          (fun e => decide (e.status = .running ∨ e.status = .paused
            ∨ e.status = .interrupted))
  ∧ listResumableSessions fs
      = (listAllSessions fs).filter
          (fun e => !decide (e.status = .completed ∨ e.status = .failed)) := by
  have hpt : ∀ st : SessionStatus,
      resumableStatuses.contains st
        = decide (st = .running ∨ st = .paused ∨ st = .interrupted) := by
    intro st
    cases st <;> rfl
  have hpt2 : ∀ st : SessionStatus,
      resumableStatuses.contains st
        = !decide (st = .completed ∨ st = .failed) := by
    intro st
    cases st <;> rfl
  constructor
  · exact List.filter_congr (fun e _ => hpt e.status)
  · exact List.filter_congr (fun e _ => hpt2 e.status)

/-- C8: `findSessionsByPrefix` returns exactly the entries whose session
id starts with the argument — a character-wise, case-sensitive prefix
match over the enumeration, in order — and the empty string matches the
full entry set. -/
theorem findSessionsByPrefix_spec (pfx : String) (fs : RegistryFs) :
    findSessionsByPrefix pfx fs
      = (fs.doc.sessions.filter (fun p => decide (pfx.data <+: p.1.data))).map
          Prod.snd
  ∧ findSessionsByPrefix "" fs = listAllSessions fs := by
  constructor
  · have hpt : ∀ p : String × SessionRegistryEntry,
        jsStartsWith p.1 pfx = decide (pfx.data <+: p.1.data) := by
      intro p
      rw [Bool.eq_iff_iff]
      simp [jsStartsWith]
    show (fs.doc.sessions.filter (fun p => jsStartsWith p.1 pfx)).map Prod.snd = _
    rw [List.filter_congr (fun p _ => hpt p)]
  · have hall : ∀ p : String × SessionRegistryEntry,
        jsStartsWith p.1 "" = true := by
      intro p
      simp [jsStartsWith, show ("".data : List Char) = [] from rfl]
    show (fs.doc.sessions.filter (fun p => jsStartsWith p.1 "")).map Prod.snd = _
    rw [List.filter_congr (fun p _ => hall p)]
    simp [listAllSessions]

/-- C9: `unregisterSession` is idempotent on the persisted document — a
second call with the same id leaves the document a first call produces —
and every call performs exactly one save, whether or not the key was
present. -/
theorem unregisterSession_idempotent (fs : RegistryFs) (sessionId : String) :
    (unregisterSession sessionId (unregisterSession sessionId fs)).doc
        = (unregisterSession sessionId fs).doc
  ∧ (unregisterSession sessionId fs).writes = fs.writes + 1 := by
  constructor
  · show SessionRegistry.mk
        (recordDelete (recordDelete fs.doc.sessions sessionId) sessionId)
        = SessionRegistry.mk (recordDelete fs.doc.sessions sessionId)
    unfold recordDelete
    rw [List.filter_filter]
    simp
  · rfl

/-- C10: `sendNotification` returns normally for every notifier
behaviour: a successful call prints nothing; a callback error and a
synchronous throw of the underlying notifier (the latter visibly an
exception of the un-wrapped body) are both swallowed into a single
`console.warn` line, and no exception reaches the caller — the function
has no access to the registry and returns `void`. -/
theorem sendNotification_never_throws (options : NotificationOptions) (msg : String) :
    sendNotification .ok options = []
  ∧ sendNotificationBody (.throwEx msg) options = Except.error msg
  ∧ sendNotification (.throwEx msg) options
      = ["[notifications] Failed to send notification: " ++ msg]
  ∧ sendNotification (.callbackError msg) options
      = ["[notifications] Failed to send notification: " ++ msg] :=
  ⟨rfl, rfl, rfl, rfl⟩

end RalphTui
